import Mathlib

/-!
# Verification of the scrabble-rs game engine

A shallow embedding of `src/scrabble/mod.rs` (the `Game` state machine, board,
bag, racks, scoring and the word scanner) together with theorems settling the
frozen claims about the engine.

Conventions of the embedding:
* Rust `Vec<T>` becomes `List T`; `Vec::pop` pops from the end.
* Fallible Rust functions returning `Result<T, Error>` become `Except Error T`.
* Operations that can panic in Rust (vector indexing out of bounds, `todo!()`,
  `expect`) are wrapped in `Option`, with `none` standing for a panic.
* The dictionary (loaded from a file or URL at runtime) is a parameter
  `dict : String → Bool` (membership test of the word set).
* The two uses of `thread_rng` are parameterised: the shuffled order of the
  bag is irrelevant to the claims (we reason about the pre-shuffle contents,
  which the shuffle permutes), and the random starting player index becomes
  an explicit argument of `start`.
-/

set_option maxRecDepth 1000000

namespace Scrabble

/-- Tiles: ordinary letter tiles and blanks, which may carry an assigned
letter (`Tile::Char` / `Tile::Blank` in the source). -/
inductive Tile where
  | char (c : Char)
  | blank (assigned : Option Char)
deriving DecidableEq, Repr

/-- Board squares (`Square` in the source). -/
inductive Square where
  | blankSq
  | tile (t : Tile)
  | letterBonus (m : Int)
  | wordBonus (m : Int)
deriving DecidableEq, Repr

/-- The board is a flat vector of 15×15 = 225 squares, row-major. -/
structure Board where
  squares : List Square
deriving DecidableEq, Repr

/-- A rack of (at most 7) tiles. -/
abbrev Rack := List Tile

/-- One turn's score entries: pairs of word string and value. -/
structure TurnScore where
  scores : List (String × Int)
deriving DecidableEq, Repr

/-- Game lifecycle state (`State` in the source). -/
inductive State where
  | pre
  | started
  | over
deriving DecidableEq, Repr

/-- A proposed turn: tile placements keyed by board index (`Turn`). -/
structure Turn where
  tiles : List (Nat × Tile)
deriving DecidableEq, Repr

/-- The error enum of the source (`Error`); the `Sqlx` payload is elided as
it only transports database errors, which the game logic never inspects. -/
inductive Error where
  | boardParse (s : String)
  | noTileToSpend (t : Tile)
  | turnIndexesNotUnique
  | turnNotLinear
  | notStarted
  | alreadyStarted
  | gameOver
  | blankTileInTurn
  | cannotPass
  | indexOutOfBounds
  | tileParse
  | turnParse
  | squareOccupied (i : Nat)
  | notConnected
  | sqlx
  | illegalWords (ws : List String)
deriving DecidableEq, Repr

/-- The full game state (`Game`); the persistence metadata (`pkid`, `name`,
`size`, `board_type`) is constant and never read by the game logic. -/
structure Game where
  board : Board
  players : List String
  player_index : Nat
  bag : List Tile
  racks : List Rack
  scores : List (List TurnScore)
  state : State
deriving DecidableEq, Repr

def BOARD_SIZE : Nat := 15
def BOARD_CENTER : Nat := 112
def INDEX_OVERFLOW : Nat := 225

/-- `score_char`: standard letter values. -/
def score_char (c : Char) : Int :=
  if c = 'A' then 1 else if c = 'B' then 3 else if c = 'C' then 3
  else if c = 'D' then 2 else if c = 'E' then 1 else if c = 'F' then 4
  else if c = 'G' then 2 else if c = 'H' then 4 else if c = 'I' then 1
  else if c = 'J' then 8 else if c = 'K' then 5 else if c = 'L' then 1
  else if c = 'M' then 3 else if c = 'N' then 1 else if c = 'O' then 1
  else if c = 'P' then 3 else if c = 'Q' then 10 else if c = 'R' then 1
  else if c = 'S' then 1 else if c = 'T' then 1 else if c = 'U' then 1
  else if c = 'V' then 4 else if c = 'W' then 4 else if c = 'X' then 8
  else if c = 'Y' then 4 else if c = 'Z' then 10 else 0

/-- `score_tile`: blanks are worth 0 regardless of assigned letter. -/
def score_tile (t : Tile) : Int :=
  match t with
  | .char c => score_char c
  | .blank _ => 0

/-- `Tile::as_char`. -/
def Tile.as_char (t : Tile) : Option Char :=
  match t with
  | .char c => some c
  | .blank (some c) => some c
  | .blank none => none

/-- `Square::get_char`. -/
def Square.get_char (s : Square) : Option Char :=
  match s with
  | .tile (.char c) => some c
  | .tile (.blank (some c)) => some c
  | _ => none

/-- `Board::get_square` (via `Vec::get`, total). -/
def square_at (b : Board) (i : Nat) : Option Square :=
  b.squares.get? i

/-- `impl GetChar for Board`. -/
def board_get_char (b : Board) (i : Nat) : Option Char :=
  (square_at b i).bind Square.get_char

/-- `Board::get_tile`; the source `expect`s the index to be in bounds, so an
out-of-range index is a panic (`none` wrapped one level up where it can
occur); here we keep the total reading used by the overlay, which only ever
queries in-bounds indexes produced by the word scan. -/
def board_get_tile (b : Board) (i : Nat) : Option Tile :=
  match square_at b i with
  | some (.tile t) => some t
  | _ => none

/-- `impl GetChar for Turn`: the first placement at the index decides. -/
def turn_get_char (t : Turn) (i : Nat) : Option Char :=
  match t.tiles.find? (fun p => p.1 = i) with
  | some (_, tile) => tile.as_char
  | none => none

/-- `Turn::get_tile`. -/
def turn_get_tile (t : Turn) (i : Nat) : Option Tile :=
  (t.tiles.find? (fun p => p.1 = i)).map Prod.snd

/-- The overlay of a proposed turn on a board (`Overlay`). -/
structure Overlay where
  board : Board
  turn : Turn

/-- `impl GetChar for Overlay`: board first, then the turn. -/
def overlay_get_char (ov : Overlay) (i : Nat) : Option Char :=
  (board_get_char ov.board i).orElse (fun _ => turn_get_char ov.turn i)

/-- `Overlay::get_tile`: turn first, then the board. -/
def overlay_get_tile (ov : Overlay) (i : Nat) : Option Tile :=
  (turn_get_tile ov.turn i).orElse (fun _ => board_get_tile ov.board i)

/-- Scan direction of the `Words` iterator. -/
inductive Direction where
  | horizontal
  | vertical
deriving DecidableEq, Repr

/-- A scanned word: the board indexes of its letters and the assembled
string (`Word`). -/
structure Word where
  indexes : List Nat
  string : String
deriving DecidableEq, Repr

/-- `Word::push`. -/
def Word.push (w : Word) (i : Nat) (c : Char) : Word :=
  ⟨w.indexes ++ [i], w.string.push c⟩

/-- `transpose_index`: maps a row-major cursor to a column-major board index
for the vertical pass. -/
def transpose_index (i : Nat) (d : Direction) : Nat :=
  match d with
  | .vertical => i / BOARD_SIZE + (i % BOARD_SIZE) * BOARD_SIZE
  | .horizontal => i

/-- Phase of `Words::next`: skipping empty squares, or accumulating a run. -/
inductive ScanPhase where
  | skip
  | scan

/-- One call of `Words::next` (the `Iterator` impl), translated with explicit
fuel for the loop; each recursive call mirrors one loop step of the source.
Returns the yielded word together with the iterator's cursor and index after
the call, or `none` when iteration is over. The fuel strictly exceeds the
number of loop steps any call can make, so it never runs out in the uses
below. -/
def words_next (src : Nat → Option Char) (d : Direction) :
    Nat → ScanPhase → Nat → Nat → Word → Option (Word × Nat × Nat)
  | 0, _, _, _, _ => none
  | fuel + 1, .skip, cursor, index, cur =>
    match src index with
    | some _ => words_next src d fuel .scan cursor index cur
    | none =>
      let c := cursor + 1
      if INDEX_OVERFLOW ≤ c then none
      else words_next src d fuel .skip c (transpose_index c d) cur
  | fuel + 1, .scan, cursor, index, cur =>
    match src index with
    | some ch =>
      let cur' := cur.push index ch
      let c := cursor + 1
      let i := transpose_index c d
      if c % BOARD_SIZE = 0 then
        if 1 < cur'.indexes.length then some (cur', c, i)
        else words_next src d fuel .skip (c + 1) (transpose_index (c + 1) d) ⟨[], ""⟩
      else words_next src d fuel .scan c i cur'
    | none =>
      if 1 < cur.indexes.length then some (cur, cursor, index)
      else words_next src d fuel .skip (cursor + 1) (transpose_index (cursor + 1) d) ⟨[], ""⟩

/-- Per-call fuel: a call of `next` advances the cursor at least every other
step and gives up once the cursor leaves the range where the transposed index
can still name a square, so 8192 steps are ample. -/
def NEXT_FUEL : Nat := 8192

/-- Draining the `Words` iterator into a list (`collect`). -/
def words_collect (src : Nat → Option Char) (d : Direction) :
    Nat → Nat → Nat → List Word
  | 0, _, _ => []
  | fuel + 1, cursor, index =>
    match words_next src d NEXT_FUEL .skip cursor index ⟨[], ""⟩ with
    | none => []
    | some (w, c, i) => w :: words_collect src d fuel c i

/-- All words yielded by one directional pass (`Words::horizontal` /
`Words::vertical` start at cursor 0, index 0). -/
def words_pass (src : Nat → Option Char) (d : Direction) : List Word :=
  words_collect src d 512 0 0

/-- `Board::words` and the overlay's word collection: the horizontal pass
chained with the vertical pass. -/
def words_of (src : Nat → Option Char) : List Word :=
  words_pass src .horizontal ++ words_pass src .vertical

/-- `Overlay::new_words`: the overlay's words minus every word already on the
bare board (`Vec::retain` drops all copies of each original word). -/
def new_words (ov : Overlay) : List Word :=
  let original := words_of (board_get_char ov.board)
  (words_of (overlay_get_char ov)).filter (fun w => ¬ w ∈ original)

/-- `Board::word_bonus`: accumulator loop over the word's indexes. -/
def word_bonus (b : Board) : Int → List Nat → Int
  | acc, [] => acc
  | acc, i :: rest =>
    word_bonus b
      (match square_at b i with
       | some (.wordBonus m) => acc * m
       | _ => acc) rest

/-- `Overlay::letter_bonus`. -/
def letter_bonus (b : Board) (i : Nat) : Int :=
  match square_at b i with
  | some (.letterBonus m) => m
  | _ => 1

/-- The summation loop of `Overlay::score_word`; `none` is the source's
panic when a word index has no tile (`expect`). -/
def sum_word_tiles (ov : Overlay) : Int → List Nat → Option Int
  | acc, [] => some acc
  | acc, i :: rest =>
    match overlay_get_tile ov i with
    | none => none
    | some t => sum_word_tiles ov (acc + score_tile t * letter_bonus ov.board i) rest

/-- `Overlay::score_word`: tile sum times the word-bonus product. -/
def score_word (ov : Overlay) (w : Word) : Option Int :=
  match sum_word_tiles ov 0 w.indexes with
  | none => none
  | some s => some (s * word_bonus ov.board 1 w.indexes)

/-- `Turn::is_bingo`: seven or more placements. -/
def is_bingo (t : Turn) : Bool := 7 ≤ t.tiles.length

/-- The scoring loop of `Overlay::score` over the new words. -/
def score_words (ov : Overlay) : List Word → Option (List (String × Int))
  | [] => some []
  | w :: rest =>
    match score_word ov w with
    | none => none
    | some s => (score_words ov rest).map (fun l => (w.string, s) :: l)

/-- `Overlay::score`: word entries in scan order, then the 50-point bingo
entry when the turn has at least seven placements. -/
def overlay_score (ov : Overlay) : Option TurnScore :=
  match score_words ov (new_words ov) with
  | none => none
  | some entries =>
    some ⟨entries ++ (if is_bingo ov.turn then [("*", 50)] else [])⟩

/-- `Overlay::validate_words` composed with `dictionary::illegal_words`:
words absent from the dictionary are illegal. -/
def validate_words (dict : String → Bool) (ov : Overlay) : Except Error Unit :=
  let illegal := ((new_words ov).map Word.string).filter (fun w => ¬ dict w)
  if illegal.isEmpty then .ok () else .error (.illegalWords illegal)

/-- `Turn::validate_unique_indexes`: the count of indexes equals the size of
their set, i.e. the indexes are pairwise distinct. -/
def validate_unique_indexes (t : Turn) : Except Error Unit :=
  if (t.tiles.map Prod.fst).Nodup then .ok () else .error .turnIndexesNotUnique

/-- `Turn::validate_linear`: all placements share a column or share a row
(the set of `i % 15` values, resp. `i / 15` values, is a singleton). -/
def validate_linear (t : Turn) : Except Error Unit :=
  if ((t.tiles.map Prod.fst).map (· % BOARD_SIZE)).dedup.length = 1
      ∨ ((t.tiles.map Prod.fst).map (· / BOARD_SIZE)).dedup.length = 1 then
    .ok ()
  else .error .turnNotLinear

/-- `Turn::validate`. -/
def turn_validate (t : Turn) : Except Error Unit :=
  match validate_unique_indexes t with
  | .error bad => .error bad
  | .ok () =>
    match validate_linear t with
    | .error bad => .error bad
    | .ok () => .ok ()

/-- Whether a board square already holds a tile (the occupancy test of
`Game::validate_turn`). -/
def occupied (b : Board) (i : Nat) : Bool :=
  match square_at b i with
  | some (.tile _) => true
  | _ => false

/-- `Game::connected_indexes`: in-row neighbours and the squares directly
above and below, with the source's boundary filters. -/
def connected_indexes (i : Nat) : List Nat :=
  (if 1 ≤ i ∧ (i - 1) / BOARD_SIZE = i / BOARD_SIZE then [i - 1] else [])
    ++ (if (i + 1) / BOARD_SIZE = i / BOARD_SIZE then [i + 1] else [])
    ++ (if BOARD_SIZE ≤ i then [i - BOARD_SIZE] else [])
    ++ (if i + BOARD_SIZE < INDEX_OVERFLOW then [i + BOARD_SIZE] else [])

/-- `Game::validate_connected`: the turn touches the centre square or a
square adjacent to an existing tile. -/
def validate_connected (b : Board) (t : Turn) : Except Error Unit :=
  if (t.tiles.map Prod.fst).any (· = BOARD_CENTER) then .ok ()
  else if (t.tiles.map Prod.fst).any
      (fun i => (connected_indexes i).any (occupied b)) then .ok ()
  else .error .notConnected

/-- The closure passed to `Vec::position` in `spend_tiles_inner`: an exact
match for letter tiles, any unassigned blank for an assigned blank, and
nothing for an unassigned blank. -/
def spend_matches (t rt : Tile) : Bool :=
  match t with
  | .char _ => t == rt
  | .blank (some _) => rt == .blank none
  | .blank none => false

/-- `Vec::position` on the rack: index of the first rack tile the turn tile
can be paid with. -/
def find_spendable (t : Tile) : Rack → Option Nat
  | [] => none
  | rt :: rest =>
    if spend_matches t rt then some 0
    else (find_spendable t rest).map (· + 1)

/-- `Game::spend_tiles_inner`: remove one matching rack tile per placement,
failing on the first placement that cannot be paid. -/
def spend_tiles_inner : List (Nat × Tile) → Rack → Except Error Rack
  | [], rack => .ok rack
  | (_, t) :: rest, rack =>
    match find_spendable t rack with
    | none => .error (.noTileToSpend t)
    | some i => spend_tiles_inner rest (rack.eraseIdx i)

/-- `Game::validate_turn`: turn shape, unoccupied squares (first offending
index reported), connectivity, then a dry-run spend on a copy of the acting
player's rack. `none` is the panic on indexing a missing rack. -/
def validate_turn (g : Game) (t : Turn) : Option (Except Error Unit) :=
  match turn_validate t with
  | .error e => some (.error e)
  | .ok () =>
    match (t.tiles.map Prod.fst).find? (occupied g.board) with
    | some i => some (.error (.squareOccupied i))
    | none =>
      match validate_connected g.board t with
      | .error e => some (.error e)
      | .ok () =>
        match g.racks.get? g.player_index with
        | none => none
        | some rack =>
          match spend_tiles_inner t.tiles rack with
          | .error e => some (.error e)
          | .ok _ => some (.ok ())

/-- `Game::score_turn`: dictionary check, score the overlay, then push the
turn score onto the acting player's score history. -/
def score_turn (dict : String → Bool) (g : Game) (t : Turn) :
    Option (Except Error Game) :=
  let ov : Overlay := ⟨g.board, t⟩
  match validate_words dict ov with
  | .error e => some (.error e)
  | .ok () =>
    match overlay_score ov with
    | none => none
    | some ts =>
      match g.scores.get? g.player_index with
      | none => none
      | some s =>
        some (.ok { g with scores := g.scores.set g.player_index (s ++ [ts]) })

/-- `Game::spend_tiles`: spend from the acting player's rack for real. -/
def spend_tiles (g : Game) (t : Turn) : Option (Except Error Game) :=
  match g.racks.get? g.player_index with
  | none => none
  | some rack =>
    match spend_tiles_inner t.tiles rack with
    | .error e => some (.error e)
    | .ok rack' => some (.ok { g with racks := g.racks.set g.player_index rack' })

/-- `Board::commit_turn`: write every placement; indexing an out-of-range
square is the source's panic (`none`). -/
def commit_turn (b : Board) : List (Nat × Tile) → Option Board
  | [] => some b
  | (i, t) :: rest =>
    if i < b.squares.length then commit_turn ⟨b.squares.set i (.tile t)⟩ rest
    else none

/-- The refill loop of `Game::fill_rack_at`: draw from the back of the bag
(`Vec::pop`) until the rack holds 7 tiles or the bag is empty. -/
def fill_rack_loop : Nat → Rack → List Tile → Rack × List Tile
  | 0, rack, bag => (rack, bag)
  | fuel + 1, rack, bag =>
    if rack.length < 7 then
      match bag.getLast? with
      | none => (rack, bag)
      | some t => fill_rack_loop fuel (rack ++ [t]) bag.dropLast
    else (rack, bag)

/-- `Game::fill_rack_at`. -/
def fill_rack_at (g : Game) (i : Nat) : Option Game :=
  match g.racks.get? i with
  | none => none
  | some rack =>
    let (rack', bag') := fill_rack_loop 8 rack g.bag
    some { g with racks := g.racks.set i rack', bag := bag' }

/-- `Game::next_player`: advance the cursor modulo the player count (`%=`
panics when there are no players). -/
def next_player (g : Game) : Option Game :=
  if g.players.length = 0 then none
  else some { g with player_index := (g.player_index + 1) % g.players.length }

/-- `rack.iter().fold(0, ...)`: total value of a player's unplayed tiles. -/
def rack_value (r : Rack) : Int := r.foldl (fun s t => s + score_tile t) 0

/-- The loop of `Game::check_game_over`: walk the racks by index and, for
each rack of positive remaining value, append a `"(remaining tiles)"` entry
to that player's score history (indexing a missing score list panics). -/
def add_remaining : List Rack → Nat → List (List TurnScore) →
    Option (List (List TurnScore))
  | [], _, scores => some scores
  | r :: rest, i, scores =>
    if 0 < rack_value r then
      match scores.get? i with
      | none => none
      | some s =>
        add_remaining rest (i + 1)
          (scores.set i (s ++ [⟨[("(remaining tiles)", -(rack_value r))]⟩]))
    else add_remaining rest (i + 1) scores

/-- `Game::check_game_over`: when the bag is empty and some rack is empty,
move to `Over` and charge every rack of positive remaining value. -/
def check_game_over (g : Game) : Option Game :=
  if g.bag.isEmpty ∧ g.racks.any List.isEmpty then
    (add_remaining g.racks 0 g.scores).map
      (fun sc => { g with state := .over, scores := sc })
  else some g

/-- `Game::play`: the full turn pipeline. The result is the final value of
`self` paired with the returned `Result`; `none` is a panic inside the
call. -/
def play (dict : String → Bool) (g : Game) (t : Turn) :
    Option (Game × Except Error Unit) :=
  match g.state with
  | .pre => some (g, .error .notStarted)
  | .over => some (g, .error .gameOver)
  | .started =>
    match validate_turn g t with
    | none => none
    | some (.error e) => some (g, .error e)
    | some (.ok ()) =>
      match score_turn dict g t with
      | none => none
      | some (.error e) => some (g, .error e)
      | some (.ok g1) =>
        match spend_tiles g1 t with
        | none => none
        | some (.error e) => some (g1, .error e)
        | some (.ok g2) =>
          match commit_turn g2.board t.tiles with
          | none => none
          | some b =>
            match fill_rack_at { g2 with board := b } g2.player_index with
            | none => none
            | some g4 =>
              match next_player g4 with
              | none => none
              | some g5 =>
                match check_game_over g5 with
                | none => none
                | some g6 => some (g6, .ok ())

/-- The loop of `Game::init_racks`: append and fill one fresh rack per
player still missing one. -/
def init_racks_loop : Nat → Game → Game
  | 0, g => g
  | fuel + 1, g =>
    if g.racks.length < g.players.length then
      let (r, b) := fill_rack_loop 8 [] g.bag
      init_racks_loop fuel { g with racks := g.racks ++ [r], bag := b }
    else g

/-- `Game::init_racks`. -/
def init_racks (g : Game) : Game := init_racks_loop g.players.length g

/-- `Game::start`: fill racks, pick a random starting player (`rand_index`
is the drawn value; drawing from an empty player list panics) and move to
`Started` — with no check of the current state. -/
def start (g : Game) (rand_index : Nat) : Option Game :=
  if g.players.isEmpty then none
  else some { init_racks g with player_index := rand_index, state := .started }

/-- `Game::add_player`: an existing player keeps their index and nothing
changes; otherwise joining is only possible before the game starts, and a
new player gets empty scores and a freshly filled rack. -/
def add_player (g : Game) (p : String) : Option (Except Error (Nat × Game)) :=
  match g.players.findIdx? (· == p) with
  | some i => some (.ok (i, g))
  | none =>
    if g.state ≠ .pre then some (.error .alreadyStarted)
    else
      let players := g.players ++ [p]
      let idx := players.length - 1
      let racks1 := g.racks ++ [([] : Rack)]
      match racks1.get? idx with
      | none => none
      | some r =>
        let (r', b) := fill_rack_loop 8 r g.bag
        some (.ok (idx, { g with players := players,
                                 scores := g.scores ++ [[]],
                                 racks := racks1.set idx r',
                                 bag := b }))

/-- `Game::rack`. -/
def rack_at (g : Game) (i : Nat) : Except Error Rack :=
  if i < g.racks.length then .ok (g.racks.getD i []) else .error .indexOutOfBounds

/-- `Game::swap` is `todo!()`: it always panics. -/
def swap (_g : Game) (_t : Turn) : Option (Except Error Game) := none

/-- `Game::pass`: rejected while more than six tiles remain in the bag,
otherwise `todo!()` (panic). -/
def game_pass (g : Game) : Option (Except Error Game) :=
  if 6 < g.bag.length then some (.error .cannotPass) else none

/-- The tile/count table of `Bag::standard`. -/
def standard_counts : List (Tile × Nat) :=
  [(.char 'A', 9), (.char 'B', 2), (.char 'C', 2), (.char 'D', 4),
   (.char 'E', 12), (.char 'F', 2), (.char 'G', 3), (.char 'H', 2),
   (.char 'I', 9), (.char 'J', 1), (.char 'K', 1), (.char 'L', 4),
   (.char 'M', 2), (.char 'N', 6), (.char 'O', 8), (.char 'P', 2),
   (.char 'Q', 1), (.char 'R', 6), (.char 'S', 4), (.char 'T', 6),
   (.char 'U', 4), (.char 'V', 2), (.char 'W', 2), (.char 'X', 1),
   (.char 'Y', 2), (.char 'Z', 1), (.blank none, 2)]

/-- The bag contents built by `Bag::standard` before the shuffle: the inner
loop `for _ in 1..count` pushes `count - 1` copies of each tile. The shuffle
only permutes this list, so any property of its multiset of tiles holds of
the shuffled bag as well. -/
def standard_bag_contents : List Tile :=
  (standard_counts.map (fun p => List.replicate (p.2 - 1) p.1)).flatten

/-- One token of `Board::parse`. -/
def parse_square (tok : String) : Except Error Square :=
  if tok = "." then .ok .blankSq
  else if tok = "3w" then .ok (.wordBonus 3)
  else if tok = "2w" then .ok (.wordBonus 2)
  else if tok = "3l" then .ok (.letterBonus 3)
  else if tok = "2l" then .ok (.letterBonus 2)
  else match tok.toList with
    | [c] => .ok (.tile (.char c))
    | _ => .error (.boardParse tok)

/-- The token loop of `Board::parse`. -/
def parse_squares : List String → Except Error (List Square)
  | [] => .ok []
  | tok :: rest =>
    match parse_square tok with
    | .error bad => .error bad
    | .ok sq =>
      match parse_squares rest with
      | .error bad => .error bad
      | .ok sqs => .ok (sq :: sqs)

/-- The whitespace-split tokens of the `Board::standard` layout string,
row by row. -/
def standard_tokens : List String :=
  ["3w", ".", ".", "2l", ".", ".", ".", "3w", ".", ".", ".", "2l", ".", ".", "3w"]
  ++ [".", "2w", ".", ".", ".", "3l", ".", ".", ".", "3l", ".", ".", ".", "2w", "."]
  ++ [".", ".", "2w", ".", ".", ".", "2l", ".", "2l", ".", ".", ".", "2w", ".", "."]
  ++ ["2l", ".", ".", "2w", ".", ".", ".", "2l", ".", ".", ".", "2w", ".", ".", "2l"]
  ++ [".", ".", ".", ".", "2w", ".", ".", ".", ".", ".", "2w", ".", ".", ".", "."]
  ++ [".", "3l", ".", ".", ".", "3l", ".", ".", ".", "3l", ".", ".", ".", "3l", "."]
  ++ [".", ".", "2l", ".", ".", ".", "2l", ".", "2l", ".", ".", ".", "2l", ".", "."]
  ++ ["3w", ".", ".", "2l", ".", ".", ".", "2w", ".", ".", ".", "2l", ".", ".", "3w"]
  ++ [".", ".", "2l", ".", ".", ".", "2l", ".", "2l", ".", ".", ".", "2l", ".", "."]
  ++ [".", "3l", ".", ".", ".", "3l", ".", ".", ".", "3l", ".", ".", ".", "3l", "."]
  ++ [".", ".", ".", ".", "2w", ".", ".", ".", ".", ".", "2w", ".", ".", ".", "."]
  ++ ["2l", ".", ".", "2w", ".", ".", ".", "2l", ".", ".", ".", "2w", ".", ".", "2l"]
  ++ [".", ".", "2w", ".", ".", ".", "2l", ".", "2l", ".", ".", ".", "2w", ".", "."]
  ++ [".", "2w", ".", ".", ".", "3l", ".", ".", ".", "3l", ".", ".", ".", "2w", "."]
  ++ ["3w", ".", ".", "2l", ".", ".", ".", "3w", ".", ".", ".", "2l", ".", ".", "3w"]

/-- `Board::standard`: the parsed standard board. -/
def standard_board : Board :=
  ⟨match parse_squares standard_tokens with
   | .ok sqs => sqs
   | .error _ => []⟩

deriving instance DecidableEq for Except

/-- A dictionary accepting every word. -/
def dict_all : String → Bool := fun _ => true

/-- A dictionary accepting no word. -/
def dict_none : String → Bool := fun _ => false

/-- Shorthand for a letter tile (the `l!` macro of the source tests). -/
def lt (c : Char) : Tile := .char c

/-- The letter-bonus multiplier a square contributes, read off the board;
`1` for anything but a `LetterBonus` square (the claim's phrasing for
`Overlay::letter_bonus`, which `letter_bonus` implements directly). -/
def word_bonus_mult (b : Board) (i : Nat) : Int :=
  match square_at b i with
  | some (.wordBonus m) => m
  | _ => 1

/-- The claimed scoring formula, written exactly as the specification words
it: the sum over the word's squares of (base letter value — 0 for blanks —
times that square's letter-bonus multiplier), the sum then multiplied by the
product of all word-bonus multipliers among the word's squares. -/
def claim_word_score (ov : Overlay) (w : Word) : Int :=
  (w.indexes.map (fun i =>
      (match overlay_get_tile ov i with
       | some t => score_tile t
       | none => 0) * letter_bonus ov.board i)).sum
    * (w.indexes.map (word_bonus_mult ov.board)).prod

/-! ### Concrete instances used by witnesses and counterexamples -/

/-- A two-player mid-game position: empty standard board, player 0 to move
holding `A B`, player 1 holding one unassigned blank, bag empty. -/
def game_c3 : Game :=
  { board := standard_board, players := ["P0", "P1"], player_index := 0,
    bag := [], racks := [[lt 'A', lt 'B'], [.blank none]],
    scores := [[], []], state := .started }

/-- The turn playing `A B` through the centre square. -/
def turn_ab : Turn := ⟨[(112, lt 'A'), (113, lt 'B')]⟩

/-- The game `game_c3` evolves to when `turn_ab` is played: tiles committed,
player 0's rack spent and unrefillable, cursor advanced, game over — and no
`"(remaining tiles)"` entry for player 1, whose rack holds only a blank. -/
def game_c3_result : Game :=
  { board := ⟨(standard_board.squares.set 112 (.tile (lt 'A'))).set 113
        (.tile (lt 'B'))⟩,
    players := ["P0", "P1"], player_index := 1, bag := [],
    racks := [[], [.blank none]], scores := [[⟨[("AB", 8)]⟩], []],
    state := .over }

/-- A two-player mid-game position with non-blank racks. -/
def game_c6 : Game :=
  { board := standard_board, players := ["P0", "P1"], player_index := 0,
    bag := [], racks := [[lt 'A', lt 'B'], [lt 'C']],
    scores := [[], []], state := .started }

/-- A turn whose second placement names board index 307 ≥ 225, sharing a
column with the centre square so that linearity passes. -/
def turn_oob : Turn := ⟨[(112, lt 'A'), (307, lt 'B')]⟩

/-- A non-linear turn (three squares spanning different rows and columns). -/
def turn_nonlinear : Turn := ⟨[(140, lt 'T'), (127, lt 'A'), (128, lt 'X')]⟩

/-- A finished one-player game. -/
def game_over_state : Game :=
  { board := standard_board, players := ["P0"], player_index := 0,
    bag := [], racks := [[lt 'A']], scores := [[]], state := .over }

/-- A board that is empty except for one tile ending row 0 (index 14) and a
two-tile run starting row 1 (indexes 15, 16). -/
def board_c5 : Board :=
  ⟨List.replicate 14 .blankSq
    ++ [.tile (lt 'A'), .tile (lt 'B'), .tile (lt 'C')]
    ++ List.replicate 208 .blankSq⟩

/-- A seven-tile overlay on the empty standard board: `AAAAAAA` through the
centre, consuming a full rack. -/
def overlay_bingo : Overlay :=
  ⟨standard_board,
   ⟨[(112, lt 'A'), (113, lt 'A'), (114, lt 'A'), (115, lt 'A'),
     (116, lt 'A'), (117, lt 'A'), (118, lt 'A')]⟩⟩

/-- A rack of seven `A` tiles. -/
def rack_seven : Rack := [lt 'A', lt 'A', lt 'A', lt 'A', lt 'A', lt 'A', lt 'A']

/-- A two-tile overlay word on the standard board, for the scoring-formula
witness. -/
def word_ab : Word := ⟨[112, 113], "AB"⟩

/-- A turn placing a single unassigned blank. -/
def turn_blank : Turn := ⟨[(112, Tile.blank none)]⟩

/-- A pre-game whose racks have to be paid out of an empty bag. -/
def game_c3_amended_witness_input : Game :=
  { board := standard_board, players := ["P0", "P1"], player_index := 1,
    bag := [], racks := [[], [lt 'Q']], scores := [[], []], state := .started }

/-! ### Helper lemmas -/

theorem find_spendable_lt {t : Tile} :
    ∀ {r : Rack} {i : Nat}, find_spendable t r = some i → i < r.length := by
  intro r
  induction r with
  | nil => intro i h; simp [find_spendable] at h
  | cons rt rest ih =>
    intro i h
    rw [find_spendable] at h
    by_cases hm : spend_matches t rt
    · simp [hm] at h
      simp only [List.length_cons]
      omega
    · simp [hm] at h
      obtain ⟨j, hj, hij⟩ := h
      have := ih hj
      simp only [List.length_cons]
      omega

theorem find_spendable_blank (r : Rack) :
    find_spendable (Tile.blank none) r = none := by
  induction r with
  | nil => rfl
  | cons rt rest ih => rw [find_spendable, ih]; rfl

theorem spend_tiles_inner_length :
    ∀ (l : List (Nat × Tile)) (r r' : Rack),
      spend_tiles_inner l r = .ok r' → r'.length + l.length = r.length := by
  intro l
  induction l with
  | nil => intro r r' h; rw [spend_tiles_inner] at h; cases h; simp
  | cons p rest ih =>
    intro r r' h
    rw [spend_tiles_inner] at h
    cases hf : find_spendable p.2 r with
    | none => rw [hf] at h; cases h
    | some i =>
      rw [hf] at h
      have hlen := ih _ _ h
      have hi : i < r.length := find_spendable_lt hf
      have := List.length_eraseIdx_add_one hi
      simp only [List.length_cons]
      omega

theorem spend_tiles_inner_blank :
    ∀ (l : List (Nat × Tile)) (r : Rack),
      Tile.blank none ∈ l.map Prod.snd →
      ∃ tl, spend_tiles_inner l r = .error (.noTileToSpend tl) := by
  intro l
  induction l with
  | nil => intro r h; simp at h
  | cons p rest ih =>
    intro r h
    rcases p with ⟨idx, tile⟩
    simp only [List.map_cons, List.mem_cons] at h
    rw [spend_tiles_inner]
    rcases h with h | h
    · subst h
      rw [find_spendable_blank]
      exact ⟨Tile.blank none, rfl⟩
    · cases hf : find_spendable tile r with
      | none => exact ⟨tile, rfl⟩
      | some i => exact ih _ h

theorem spend_tiles_inner_error_shape :
    ∀ (l : List (Nat × Tile)) (r : Rack) (e : Error),
      spend_tiles_inner l r = .error e → ∃ tl, e = .noTileToSpend tl := by
  intro l
  induction l with
  | nil => intro r e h; rw [spend_tiles_inner] at h; cases h
  | cons p rest ih =>
    intro r e h
    rw [spend_tiles_inner] at h
    cases hf : find_spendable p.2 r with
    | none => rw [hf] at h; cases h; exact ⟨p.2, rfl⟩
    | some i => rw [hf] at h; exact ih _ _ h

theorem validate_turn_ok {g : Game} {t : Turn}
    (h : validate_turn g t = some (.ok ())) :
    ∃ rack rest, g.racks.get? g.player_index = some rack ∧
      spend_tiles_inner t.tiles rack = .ok rest := by
  unfold validate_turn at h
  cases h1 : turn_validate t with
  | error e => rw [h1] at h; try dsimp only [] at h; simp at h
  | ok u =>
    cases u; rw [h1] at h; try dsimp only [] at h
    cases h2 : (t.tiles.map Prod.fst).find? (occupied g.board) with
    | some i => rw [h2] at h; try dsimp only [] at h; simp at h
    | none =>
      rw [h2] at h; try dsimp only [] at h
      cases h3 : validate_connected g.board t with
      | error e => rw [h3] at h; try dsimp only [] at h; simp at h
      | ok u =>
        cases u; rw [h3] at h; try dsimp only [] at h
        cases h4 : g.racks.get? g.player_index with
        | none => rw [h4] at h; try dsimp only [] at h; simp at h
        | some rack =>
          rw [h4] at h; try dsimp only [] at h
          cases h5 : spend_tiles_inner t.tiles rack with
          | error e => rw [h5] at h; try dsimp only [] at h; simp at h
          | ok rest => exact ⟨rack, rest, rfl, h5⟩

theorem validate_turn_error_shape {g : Game} {t : Turn} {e : Error}
    (h : validate_turn g t = some (.error e)) :
    e = .turnIndexesNotUnique ∨ e = .turnNotLinear ∨
      (∃ i, e = .squareOccupied i) ∨ e = .notConnected ∨
      ∃ tl, e = .noTileToSpend tl := by
  unfold validate_turn at h
  cases h1 : turn_validate t with
  | error e1 =>
    rw [h1] at h; try dsimp only [] at h
    unfold turn_validate at h1
    cases h1a : validate_unique_indexes t with
    | error e2 =>
      rw [h1a] at h1; try dsimp only [] at h1
      unfold validate_unique_indexes at h1a
      split at h1a
      · cases h1a
      · cases h1a; cases h1; cases h
        tauto
    | ok u =>
      cases u; rw [h1a] at h1; try dsimp only [] at h1
      cases h1b : validate_linear t with
      | error e2 =>
        rw [h1b] at h1; try dsimp only [] at h1
        unfold validate_linear at h1b
        split at h1b
        · cases h1b
        · cases h1b; cases h1; cases h
          tauto
      | ok u => cases u; rw [h1b] at h1; try dsimp only [] at h1; cases h1
  | ok u =>
    cases u; rw [h1] at h; try dsimp only [] at h
    cases h2 : (t.tiles.map Prod.fst).find? (occupied g.board) with
    | some i =>
      rw [h2] at h; try dsimp only [] at h; cases h
      have hx : ∃ j, Error.squareOccupied i = Error.squareOccupied j := ⟨i, rfl⟩
      tauto
    | none =>
      rw [h2] at h; try dsimp only [] at h
      cases h3 : validate_connected g.board t with
      | error e3 =>
        rw [h3] at h; try dsimp only [] at h; cases h
        unfold validate_connected at h3
        split at h3
        · cases h3
        · split at h3
          · cases h3
          · cases h3; tauto
      | ok u =>
        cases u; rw [h3] at h; try dsimp only [] at h
        cases h4 : g.racks.get? g.player_index with
        | none => rw [h4] at h; try dsimp only [] at h; cases h
        | some rack =>
          rw [h4] at h; try dsimp only [] at h
          cases h5 : spend_tiles_inner t.tiles rack with
          | error e5 =>
            rw [h5] at h; try dsimp only [] at h; cases h
            have hx := spend_tiles_inner_error_shape _ _ _ h5
            tauto
          | ok rest => rw [h5] at h; try dsimp only [] at h; simp at h

theorem score_turn_ok_fields {dict : String → Bool} {g : Game} {t : Turn}
    {g1 : Game} (h : score_turn dict g t = some (.ok g1)) :
    g1.board = g.board ∧ g1.players = g.players ∧
      g1.player_index = g.player_index ∧ g1.bag = g.bag ∧
      g1.racks = g.racks ∧ g1.state = g.state := by
  unfold score_turn at h
  try dsimp only [] at h
  cases h1 : validate_words dict ⟨g.board, t⟩ with
  | error e => rw [h1] at h; try dsimp only [] at h; simp at h
  | ok u =>
    cases u; rw [h1] at h; try dsimp only [] at h
    cases h2 : overlay_score ⟨g.board, t⟩ with
    | none => rw [h2] at h; try dsimp only [] at h; simp at h
    | some ts =>
      rw [h2] at h; try dsimp only [] at h
      cases h3 : g.scores.get? g.player_index with
      | none => rw [h3] at h; try dsimp only [] at h; simp at h
      | some s =>
        rw [h3] at h; try dsimp only [] at h
        simp only [Option.some.injEq, Except.ok.injEq] at h
        subst h
        and_intros <;> rfl

theorem score_turn_error_shape {dict : String → Bool} {g : Game} {t : Turn}
    {e : Error} (h : score_turn dict g t = some (.error e)) :
    ∃ ws, e = .illegalWords ws := by
  unfold score_turn at h
  try dsimp only [] at h
  cases h1 : validate_words dict ⟨g.board, t⟩ with
  | error e1 =>
    rw [h1] at h; try dsimp only [] at h
    unfold validate_words at h1
    try dsimp only [] at h1
    split at h1
    · cases h1
    · cases h1; cases h
      exact ⟨_, rfl⟩
  | ok u =>
    cases u; rw [h1] at h; try dsimp only [] at h
    cases h2 : overlay_score ⟨g.board, t⟩ with
    | none => rw [h2] at h; try dsimp only [] at h; simp at h
    | some ts =>
      rw [h2] at h; try dsimp only [] at h
      cases h3 : g.scores.get? g.player_index with
      | none => rw [h3] at h; try dsimp only [] at h; simp at h
      | some s => rw [h3] at h; try dsimp only [] at h; simp at h

theorem spend_tiles_ok_fields {g : Game} {t : Turn} {g2 : Game}
    (h : spend_tiles g t = some (.ok g2)) :
    g2.board = g.board ∧ g2.players = g.players ∧
      g2.player_index = g.player_index ∧ g2.bag = g.bag ∧
      g2.scores = g.scores ∧ g2.state = g.state := by
  unfold spend_tiles at h
  cases h1 : g.racks.get? g.player_index with
  | none => rw [h1] at h; try dsimp only [] at h; cases h
  | some rack =>
    rw [h1] at h; try dsimp only [] at h
    cases h2 : spend_tiles_inner t.tiles rack with
    | error e => rw [h2] at h; try dsimp only [] at h; simp at h
    | ok rack' =>
      rw [h2] at h; try dsimp only [] at h
      simp only [Option.some.injEq, Except.ok.injEq] at h
      subst h
      exact ⟨rfl, rfl, rfl, rfl, rfl, rfl⟩

theorem check_game_over_fields {g g' : Game}
    (h : check_game_over g = some g') :
    g'.board = g.board ∧ g'.players = g.players ∧
      g'.player_index = g.player_index ∧ g'.bag = g.bag ∧
      g'.racks = g.racks := by
  unfold check_game_over at h
  split at h
  · cases h1 : add_remaining g.racks 0 g.scores with
    | none => rw [h1] at h; cases h
    | some sc =>
      rw [h1] at h
      simp at h
      subst h
      and_intros <;> rfl
  · cases h
    and_intros <;> rfl

theorem spend_tiles_error_shape {g : Game} {t : Turn} {e : Error}
    (h : spend_tiles g t = some (.error e)) : ∃ tl, e = .noTileToSpend tl := by
  unfold spend_tiles at h
  cases h1 : g.racks.get? g.player_index with
  | none => rw [h1] at h; try dsimp only [] at h; cases h
  | some rack =>
    rw [h1] at h; try dsimp only [] at h
    cases h2 : spend_tiles_inner t.tiles rack with
    | error e2 =>
      rw [h2] at h; try dsimp only [] at h; cases h
      exact spend_tiles_inner_error_shape _ _ _ h2
    | ok rest => rw [h2] at h; try dsimp only [] at h; simp at h

theorem play_error_unchanged {dict : String → Bool} {g : Game} {t : Turn}
    {g' : Game} {e : Error} (h : play dict g t = some (g', .error e)) :
    g' = g := by
  unfold play at h
  cases hs : g.state with
  | pre => rw [hs] at h; try dsimp only [] at h; cases h; rfl
  | over => rw [hs] at h; try dsimp only [] at h; cases h; rfl
  | started =>
    rw [hs] at h; try dsimp only [] at h
    cases h1 : validate_turn g t with
    | none => rw [h1] at h; try dsimp only [] at h; cases h
    | some r1 =>
      cases r1 with
      | error e1 => rw [h1] at h; try dsimp only [] at h; cases h; rfl
      | ok u =>
        cases u; rw [h1] at h; try dsimp only [] at h
        cases h2 : score_turn dict g t with
        | none => rw [h2] at h; try dsimp only [] at h; cases h
        | some r2 =>
          cases r2 with
          | error e2 => rw [h2] at h; try dsimp only [] at h; cases h; rfl
          | ok g1 =>
            rw [h2] at h; try dsimp only [] at h
            obtain ⟨rack, rest, hr, hsp⟩ := validate_turn_ok h1
            obtain ⟨-, -, hpi, -, hracks, -⟩ := score_turn_ok_fields h2
            have hsp1 : ∃ g2, spend_tiles g1 t = some (.ok g2) := by
              unfold spend_tiles
              rw [hpi, hracks, hr]
              try dsimp only []
              rw [hsp]
              exact ⟨_, rfl⟩
            cases h3 : spend_tiles g1 t with
            | none =>
              obtain ⟨g2, hg2⟩ := hsp1
              rw [h3] at hg2; cases hg2
            | some r3 =>
              cases r3 with
              | error e3 =>
                obtain ⟨g2, hg2⟩ := hsp1
                rw [h3] at hg2; simp at hg2
              | ok g2 =>
                rw [h3] at h; try dsimp only [] at h
                cases h4 : commit_turn g2.board t.tiles with
                | none => rw [h4] at h; try dsimp only [] at h; cases h
                | some b =>
                  rw [h4] at h; try dsimp only [] at h
                  cases h5 : fill_rack_at { g2 with board := b } g2.player_index with
                  | none => rw [h5] at h; try dsimp only [] at h; cases h
                  | some g4 =>
                    rw [h5] at h; try dsimp only [] at h
                    cases h6 : next_player g4 with
                    | none => rw [h6] at h; try dsimp only [] at h; cases h
                    | some g5 =>
                      rw [h6] at h; try dsimp only [] at h
                      cases h7 : check_game_over g5 with
                      | none => rw [h7] at h; try dsimp only [] at h; cases h
                      | some g6 => rw [h7] at h; try dsimp only [] at h; simp at h

theorem play_error_shape {dict : String → Bool} {g : Game} {t : Turn}
    {g' : Game} {e : Error} (h : play dict g t = some (g', .error e)) :
    e = .notStarted ∨ e = .gameOver ∨ e = .turnIndexesNotUnique ∨
      e = .turnNotLinear ∨ (∃ i, e = .squareOccupied i) ∨ e = .notConnected ∨
      (∃ tl, e = .noTileToSpend tl) ∨ ∃ ws, e = .illegalWords ws := by
  unfold play at h
  cases hs : g.state with
  | pre => rw [hs] at h; try dsimp only [] at h; cases h; tauto
  | over => rw [hs] at h; try dsimp only [] at h; cases h; tauto
  | started =>
    rw [hs] at h; try dsimp only [] at h
    cases h1 : validate_turn g t with
    | none => rw [h1] at h; try dsimp only [] at h; cases h
    | some r1 =>
      cases r1 with
      | error e1 =>
        rw [h1] at h; try dsimp only [] at h; cases h
        have hshape := validate_turn_error_shape h1
        tauto
      | ok u =>
        cases u; rw [h1] at h; try dsimp only [] at h
        cases h2 : score_turn dict g t with
        | none => rw [h2] at h; try dsimp only [] at h; cases h
        | some r2 =>
          cases r2 with
          | error e2 =>
            rw [h2] at h; try dsimp only [] at h; cases h
            have hshape := score_turn_error_shape h2
            tauto
          | ok g1 =>
            rw [h2] at h; try dsimp only [] at h
            cases h3 : spend_tiles g1 t with
            | none => rw [h3] at h; try dsimp only [] at h; cases h
            | some r3 =>
              cases r3 with
              | error e3 =>
                rw [h3] at h; try dsimp only [] at h; cases h
                have hshape := spend_tiles_error_shape h3
                tauto
              | ok g2 =>
                rw [h3] at h; try dsimp only [] at h
                cases h4 : commit_turn g2.board t.tiles with
                | none => rw [h4] at h; try dsimp only [] at h; cases h
                | some b =>
                  rw [h4] at h; try dsimp only [] at h
                  cases h5 : fill_rack_at { g2 with board := b } g2.player_index with
                  | none => rw [h5] at h; try dsimp only [] at h; cases h
                  | some g4 =>
                    rw [h5] at h; try dsimp only [] at h
                    cases h6 : next_player g4 with
                    | none => rw [h6] at h; try dsimp only [] at h; cases h
                    | some g5 =>
                      rw [h6] at h; try dsimp only [] at h
                      cases h7 : check_game_over g5 with
                      | none => rw [h7] at h; try dsimp only [] at h; cases h
                      | some g6 => rw [h7] at h; try dsimp only [] at h; cases h

theorem play_ok_validate {dict : String → Bool} {g : Game} {t : Turn}
    {g' : Game} (h : play dict g t = some (g', .ok ())) :
    validate_turn g t = some (.ok ()) := by
  unfold play at h
  cases hs : g.state with
  | pre => rw [hs] at h; try dsimp only [] at h; cases h
  | over => rw [hs] at h; try dsimp only [] at h; cases h
  | started =>
    rw [hs] at h; try dsimp only [] at h
    cases h1 : validate_turn g t with
    | none => rw [h1] at h; try dsimp only [] at h; cases h
    | some r1 =>
      cases r1 with
      | error e1 => rw [h1] at h; try dsimp only [] at h; cases h
      | ok u => cases u; rfl

theorem play_ok_check_game_over {dict : String → Bool} {g : Game} {t : Turn}
    {g' : Game} (h : play dict g t = some (g', .ok ())) :
    ∃ gm, check_game_over gm = some g' := by
  unfold play at h
  cases hs : g.state with
  | pre => rw [hs] at h; try dsimp only [] at h; cases h
  | over => rw [hs] at h; try dsimp only [] at h; cases h
  | started =>
    rw [hs] at h; try dsimp only [] at h
    cases h1 : validate_turn g t with
    | none => rw [h1] at h; try dsimp only [] at h; cases h
    | some r1 =>
      cases r1 with
      | error e1 => rw [h1] at h; try dsimp only [] at h; cases h
      | ok u =>
        cases u; rw [h1] at h; try dsimp only [] at h
        cases h2 : score_turn dict g t with
        | none => rw [h2] at h; try dsimp only [] at h; cases h
        | some r2 =>
          cases r2 with
          | error e2 => rw [h2] at h; try dsimp only [] at h; cases h
          | ok g1 =>
            rw [h2] at h; try dsimp only [] at h
            cases h3 : spend_tiles g1 t with
            | none => rw [h3] at h; try dsimp only [] at h; cases h
            | some r3 =>
              cases r3 with
              | error e3 => rw [h3] at h; try dsimp only [] at h; cases h
              | ok g2 =>
                rw [h3] at h; try dsimp only [] at h
                cases h4 : commit_turn g2.board t.tiles with
                | none => rw [h4] at h; try dsimp only [] at h; cases h
                | some b =>
                  rw [h4] at h; try dsimp only [] at h
                  cases h5 : fill_rack_at { g2 with board := b } g2.player_index with
                  | none => rw [h5] at h; try dsimp only [] at h; cases h
                  | some g4 =>
                    rw [h5] at h; try dsimp only [] at h
                    cases h6 : next_player g4 with
                    | none => rw [h6] at h; try dsimp only [] at h; cases h
                    | some g5 =>
                      rw [h6] at h; try dsimp only [] at h
                      cases h7 : check_game_over g5 with
                      | none => rw [h7] at h; try dsimp only [] at h; cases h
                      | some g6 =>
                        rw [h7] at h; try dsimp only [] at h
                        cases h
                        exact ⟨g5, h7⟩

/-- The game-over entry a rack of value `v` earns. -/
def remaining_entry (v : Int) : TurnScore := ⟨[("(remaining tiles)", -v)]⟩

theorem add_remaining_spec :
    ∀ (racks : List Rack) (k : Nat) (scores : List (List TurnScore)),
      racks.length + k ≤ scores.length →
      ∃ sc, add_remaining racks k scores = some sc ∧
        sc.length = scores.length ∧
        (∀ j, j < k → sc.get? j = scores.get? j) ∧
        (∀ j, k + racks.length ≤ j → sc.get? j = scores.get? j) ∧
        (∀ o r, racks.get? o = some r → sc.get? (k + o) =
          (scores.get? (k + o)).map (fun s => s ++
            (if 0 < rack_value r then [remaining_entry (rack_value r)] else []))) := by
  intro racks
  induction racks with
  | nil =>
    intro k scores _
    refine ⟨scores, rfl, rfl, fun j _ => rfl, fun j _ => rfl, ?_⟩
    intro o r ho
    simp at ho
  | cons r0 rest ih =>
    intro k scores hlen
    simp only [List.length_cons] at hlen
    have hk : k < scores.length := by omega
    rw [add_remaining]
    by_cases hv : 0 < rack_value r0
    · obtain ⟨s0, hs0⟩ : ∃ s0, scores.get? k = some s0 := by
        cases hget : scores.get? k with
        | none =>
          have := List.get?_eq_none.mp hget
          omega
        | some s0 => exact ⟨s0, rfl⟩
      rw [if_pos hv, hs0]
      have hlen' : rest.length + (k + 1) ≤
          (scores.set k (s0 ++ [remaining_entry (rack_value r0)])).length := by
        rw [List.length_set]; omega
      obtain ⟨sc, hsc, hsclen, hlow, hhigh, hmid⟩ := ih (k + 1) _ hlen'
      refine ⟨sc, hsc, by rw [hsclen, List.length_set], ?_, ?_, ?_⟩
      · intro j hj
        rw [hlow j (by omega), List.get?_set_ne _ _ (by omega)]
      · intro j hj
        simp only [List.length_cons] at hj
        rw [hhigh j (by omega), List.get?_set_ne _ _ (by omega)]
      · intro o r ho
        cases o with
        | zero =>
          simp only [List.get?_cons_zero, Option.some.injEq] at ho
          subst ho
          have := hlow k (by omega)
          rw [Nat.add_zero, this,
            List.get?_set_eq_of_lt _ hk, hs0, if_pos hv]
          rfl
        | succ o' =>
          simp only [List.get?_cons_succ] at ho
          have := hmid o' r ho
          rw [show k + (o' + 1) = k + 1 + o' by omega, this,
            List.get?_set_ne _ _ (by omega)]
    · have hlen' : rest.length + (k + 1) ≤ scores.length := by omega
      rw [if_neg hv]
      obtain ⟨sc, hsc, hsclen, hlow, hhigh, hmid⟩ := ih (k + 1) scores hlen'
      refine ⟨sc, hsc, hsclen, ?_, ?_, ?_⟩
      · intro j hj
        exact hlow j (by omega)
      · intro j hj
        simp only [List.length_cons] at hj
        exact hhigh j (by omega)
      · intro o r ho
        cases o with
        | zero =>
          simp only [List.get?_cons_zero, Option.some.injEq] at ho
          subst ho
          rw [Nat.add_zero, hlow k (by omega)]
          cases hget : scores.get? k with
          | none =>
            have := List.get?_eq_none.mp hget
            omega
          | some s0 =>
            rw [if_neg hv]
            simp
        | succ o' =>
          simp only [List.get?_cons_succ] at ho
          have := hmid o' r ho
          rw [show k + (o' + 1) = k + 1 + o' by omega]
          exact this

theorem word_bonus_acc (b : Board) (l : List Nat) :
    ∀ a : Int, word_bonus b a l = a * (l.map (word_bonus_mult b)).prod := by
  induction l with
  | nil => intro a; simp [word_bonus]
  | cons i rest ih =>
    intro a
    rw [word_bonus, ih]
    have hstep : (match square_at b i with
        | some (.wordBonus m) => a * m
        | _ => a) = a * word_bonus_mult b i := by
      unfold word_bonus_mult
      cases hsq : square_at b i with
      | none => simp
      | some sq => cases sq <;> simp
    rw [hstep]
    simp [mul_assoc]

theorem sum_word_tiles_acc (ov : Overlay) (l : List Nat) :
    ∀ (a : Int),
      (∀ i ∈ l, (overlay_get_tile ov i).isSome = true) →
      sum_word_tiles ov a l = some (a + (l.map (fun i =>
        (match overlay_get_tile ov i with
         | some t => score_tile t
         | none => 0) * letter_bonus ov.board i)).sum) := by
  induction l with
  | nil => intro a _; simp [sum_word_tiles]
  | cons i rest ih =>
    intro a h
    have hi := h i (List.mem_cons_self i rest)
    cases hget : overlay_get_tile ov i with
    | none => rw [hget] at hi; cases hi
    | some t =>
      rw [sum_word_tiles, hget]
      try dsimp only []
      rw [ih _ (fun j hj => h j (List.mem_cons_of_mem i hj))]
      rw [List.map_cons, List.sum_cons, hget]
      congr 1
      ring

/-! ### Claim theorems -/

/-- C1: for every game in the `Started` state and every turn, if `play(turn)`
returns an error then the board, the bag, every rack and every player's score
history are exactly as they were before the call — the pipeline stops at the
first failing check with no partial effects. -/
theorem play_error_no_partial_effects (dict : String → Bool) (g : Game)
    (t : Turn) (g' : Game) (e : Error) (hs : g.state = .started)
    (h : play dict g t = some (g', .error e)) :
    g'.board = g.board ∧ g'.bag = g.bag ∧ g'.racks = g.racks ∧
      g'.scores = g.scores := by
  have hg := play_error_unchanged h
  subst hg
  exact ⟨rfl, rfl, rfl, rfl⟩

theorem play_error_no_partial_effects_witness :
    (game_c6.state = .started ∧
      play dict_all game_c6 turn_nonlinear =
        some (game_c6, .error .turnNotLinear)) ∧
    (game_c6.board = game_c6.board ∧ game_c6.bag = game_c6.bag ∧
      game_c6.racks = game_c6.racks ∧ game_c6.scores = game_c6.scores) :=
  ⟨⟨rfl, by decide⟩,
   play_error_no_partial_effects dict_all game_c6 turn_nonlinear game_c6
     .turnNotLinear rfl (by decide)⟩

/-- C2: the claim states `Bag::standard` holds the full standard English
distribution (9 A, …, 2 blanks; 100 tiles). The construction loop
`for _ in 1..count` pushes one copy too few of every tile, so the bag that is
shuffled holds 73 tiles, with no J, K, Q, X or Z at all and a single blank;
this evaluation records the divergence. -/
theorem standard_bag_miscount :
    standard_bag_contents.length = 73 ∧
    standard_bag_contents.count (Tile.char 'A') = 8 ∧
    standard_bag_contents.count (Tile.char 'E') = 11 ∧
    standard_bag_contents.count (Tile.char 'J') = 0 ∧
    standard_bag_contents.count (Tile.char 'K') = 0 ∧
    standard_bag_contents.count (Tile.char 'Q') = 0 ∧
    standard_bag_contents.count (Tile.char 'X') = 0 ∧
    standard_bag_contents.count (Tile.char 'Z') = 0 ∧
    standard_bag_contents.count (Tile.blank none) = 1 := by
  decide

/-- C5: the claim states the scan yields every maximal contiguous run of
length ≥ 2. On `board_c5` the cells 15 and 16 hold `B`, `C` (a maximal
horizontal run of length 2 at the start of row 1, preceded by the lone `A`
ending row 0 at index 14), yet the scanner yields nothing: after the
length-1 run `[14]` breaks at the row boundary, `advance()` skips cell 15
and the qualifying run is lost. -/
theorem words_scanner_omits_row_boundary_run :
    words_of (board_get_char board_c5) = [] ∧
    board_get_char board_c5 14 = some 'A' ∧
    board_get_char board_c5 15 = some 'B' ∧
    board_get_char board_c5 16 = some 'C' ∧
    board_get_char board_c5 17 = none ∧
    15 % BOARD_SIZE = 0 ∧ 16 < INDEX_OVERFLOW := by
  decide

/-- C6 (counterexample): the claim states a turn rejected with
`IllegalWords` still advances the player cursor. With a dictionary rejecting
`"AB"`, the play fails with `IllegalWords ["AB"]` but the game — including
`player_index`, still 0 rather than 1 — is returned unchanged:
`Game::play` propagates the error before `next_player` runs. -/
theorem illegal_words_leaves_cursor_in_place :
    play dict_none game_c6 turn_ab =
      some (game_c6, .error (.illegalWords ["AB"])) ∧
    game_c6.player_index = 0 ∧
    (game_c6.player_index + 1) % game_c6.players.length = 1 := by
  refine ⟨by decide, rfl, rfl⟩

/-- C6 (amended): a turn rejected by `play` — for any reason, including
`IllegalWords` — leaves the game entirely unchanged: the cursor does not
advance and the same player may retry. -/
theorem rejected_play_leaves_game_unchanged (dict : String → Bool) (g : Game)
    (t : Turn) (g' : Game) (e : Error)
    (h : play dict g t = some (g', .error e)) : g' = g :=
  play_error_unchanged h

theorem rejected_play_leaves_game_unchanged_witness :
    play dict_none game_c3 turn_ab =
      some (game_c3, .error (.illegalWords ["AB"])) ∧ game_c3 = game_c3 :=
  ⟨by decide,
   rejected_play_leaves_game_unchanged dict_none game_c3 turn_ab game_c3
     (.illegalWords ["AB"]) (by decide) ▸ rfl⟩

/-- C9: the claim states `play` is total and that a board index ≥ 225 is
rejected by validation before any board write. In fact validation accepts
`turn_oob` (index 307 shares a column with the centre square, and
`Vec::get` just returns `None` for it), and the play then panics inside
`Board::commit_turn` when indexing the 225-square vector at 307 —
modelled as the `none` result. -/
theorem play_panics_on_out_of_bounds_index :
    play dict_all game_c6 turn_oob = none ∧
    validate_turn game_c6 turn_oob = some (.ok ()) ∧
    (turn_oob.tiles.map Prod.fst).any (fun i => 225 ≤ i) = true := by
  decide

/-- C7: every newly formed word is scored as the sum over its squares of
(the tile's base letter value — 0 for any blank, whatever its assigned
letter — times that square's letter-bonus multiplier), the sum then
multiplied by the product of all word-bonus multipliers among the word's
squares, which therefore compound multiplicatively. -/
theorem score_word_matches_claim_formula (ov : Overlay) (w : Word)
    (h : ∀ i ∈ w.indexes, (overlay_get_tile ov i).isSome = true) :
    score_word ov w = some (claim_word_score ov w) := by
  unfold score_word claim_word_score
  rw [sum_word_tiles_acc ov w.indexes 0 h]
  try dsimp only []
  rw [word_bonus_acc, zero_add, one_mul]

theorem score_word_matches_claim_formula_witness :
    (∀ i ∈ word_ab.indexes,
      (overlay_get_tile ⟨standard_board, turn_ab⟩ i).isSome = true) ∧
    score_word ⟨standard_board, turn_ab⟩ word_ab =
      some (claim_word_score ⟨standard_board, turn_ab⟩ word_ab) :=
  ⟨by decide,
   score_word_matches_claim_formula ⟨standard_board, turn_ab⟩ word_ab (by decide)⟩

/-- C8: for every turn accepted by validation (here: whose tiles can all be
spent from the acting player's rack of at most 7 tiles), the `TurnScore`
carries exactly one extra `("*", 50)` entry, appended after all real word
entries, precisely when the turn consumes all 7 rack tiles; emptying a
smaller rack earns nothing extra. -/
theorem bingo_entry_iff_seven_spent (ov : Overlay) (rack rack' : Rack)
    (ts : TurnScore) (hspend : spend_tiles_inner ov.turn.tiles rack = .ok rack')
    (hlen : rack.length ≤ 7) (hscore : overlay_score ov = some ts) :
    ∃ entries, score_words ov (new_words ov) = some entries ∧
      ts.scores = entries ++
        (if rack.length = 7 ∧ rack' = [] then [("*", 50)] else []) ∧
      (is_bingo ov.turn = true ↔ (rack.length = 7 ∧ rack' = [])) := by
  have hlen2 := spend_tiles_inner_length _ _ _ hspend
  have hiff : is_bingo ov.turn = true ↔ (rack.length = 7 ∧ rack' = []) := by
    unfold is_bingo
    simp only [decide_eq_true_eq]
    constructor
    · intro h7
      have h2 : rack'.length = 0 := by omega
      exact ⟨by omega, List.length_eq_zero.mp h2⟩
    · intro hc
      obtain ⟨h1, h2⟩ := hc
      subst h2
      simp only [List.length_nil] at hlen2
      omega
  unfold overlay_score at hscore
  cases hsw : score_words ov (new_words ov) with
  | none => rw [hsw] at hscore; cases hscore
  | some entries =>
    rw [hsw] at hscore
    try dsimp only [] at hscore
    cases hscore
    refine ⟨entries, rfl, ?_, hiff⟩
    show entries ++ _ = entries ++ _
    rw [if_congr hiff rfl rfl]

theorem bingo_entry_iff_seven_spent_witness :
    (spend_tiles_inner overlay_bingo.turn.tiles rack_seven = .ok []) ∧
    rack_seven.length ≤ 7 ∧
    (overlay_score overlay_bingo =
      some ⟨[("AAAAAAA", 16), ("*", 50)]⟩) ∧
    (∃ entries, score_words overlay_bingo (new_words overlay_bingo) =
        some entries ∧
      (⟨[("AAAAAAA", 16), ("*", 50)]⟩ : TurnScore).scores = entries ++
        (if rack_seven.length = 7 ∧ ([] : Rack) = [] then [("*", 50)] else []) ∧
      (is_bingo overlay_bingo.turn = true ↔
        (rack_seven.length = 7 ∧ ([] : Rack) = []))) :=
  ⟨by decide, by decide, by decide,
   bingo_entry_iff_seven_spent overlay_bingo rack_seven [] _
     (by decide) (by norm_num [rack_seven]) (by decide)⟩

/-- C10: a turn containing an unassigned blank can never be played: no rack
tile can pay for it, the dry-run spend fails with a `NoTileToSpend` error,
`play` never returns `Ok`, and the `BlankTileInTurn` variant is produced by
no operation (`play` only ever reports the listed validation errors,
`add_player` only `AlreadyStarted`, `pass` only `CannotPass`, `rack` only
`IndexOutOfBounds`). -/
theorem blank_tile_unspendable (t : Turn)
    (hb : Tile.blank none ∈ t.tiles.map Prod.snd) :
    (∀ r : Rack, find_spendable (Tile.blank none) r = none) ∧
    (∀ r : Rack, ∃ tl, spend_tiles_inner t.tiles r =
      .error (.noTileToSpend tl)) ∧
    (∀ (dict : String → Bool) (g g' : Game),
      play dict g t ≠ some (g', .ok ())) ∧
    (∀ (dict : String → Bool) (g : Game) (t' : Turn) (g' : Game) (e : Error),
      play dict g t' = some (g', .error e) → e ≠ .blankTileInTurn) ∧
    (∀ (g : Game) (p : String) (e : Error),
      add_player g p = some (.error e) → e = .alreadyStarted) ∧
    (∀ (g : Game) (e : Error),
      game_pass g = some (.error e) → e = .cannotPass) ∧
    (∀ (g : Game) (i : Nat) (e : Error),
      rack_at g i = .error e → e = .indexOutOfBounds) := by
  refine ⟨find_spendable_blank,
    fun r => spend_tiles_inner_blank t.tiles r hb, ?hok, ?hnoblank, ?hadd, ?hpassed, ?hrk⟩
  · intro dict g g' hok
    obtain ⟨rack, rest, hr, hsp⟩ := validate_turn_ok (play_ok_validate hok)
    obtain ⟨tl, htl⟩ := spend_tiles_inner_blank t.tiles rack hb
    rw [hsp] at htl
    cases htl
  · intro dict g t' g' e h
    have hshape := play_error_shape h
    intro hc
    subst hc
    rcases hshape with h1 | h1 | h1 | h1 | ⟨i, h1⟩ | h1 | ⟨tl, h1⟩ | ⟨ws, h1⟩ <;>
      cases h1
  · intro g p e hadd
    unfold add_player at hadd
    cases h1 : g.players.findIdx? (· == p) with
    | some j => rw [h1] at hadd; try dsimp only [] at hadd; cases hadd
    | none =>
      rw [h1] at hadd; try dsimp only [] at hadd
      split at hadd
      · cases hadd; rfl
      · cases h2 : (g.racks ++ [([] : Rack)]).get? ((g.players ++ [p]).length - 1) with
        | none => rw [h2] at hadd; try dsimp only [] at hadd; cases hadd
        | some r => rw [h2] at hadd; try dsimp only [] at hadd; cases hadd
  · intro g e hp
    unfold game_pass at hp
    split at hp
    · cases hp; rfl
    · cases hp
  · intro g i e hr
    unfold rack_at at hr
    split at hr
    · cases hr
    · cases hr; rfl

theorem blank_tile_unspendable_witness :
    (Tile.blank none ∈ turn_blank.tiles.map Prod.snd) ∧
    ((∀ r : Rack, find_spendable (Tile.blank none) r = none) ∧
    (∀ r : Rack, ∃ tl, spend_tiles_inner turn_blank.tiles r =
      .error (.noTileToSpend tl)) ∧
    (∀ (dict : String → Bool) (g g' : Game),
      play dict g turn_blank ≠ some (g', .ok ())) ∧
    (∀ (dict : String → Bool) (g : Game) (t' : Turn) (g' : Game) (e : Error),
      play dict g t' = some (g', .error e) → e ≠ .blankTileInTurn) ∧
    (∀ (g : Game) (p : String) (e : Error),
      add_player g p = some (.error e) → e = .alreadyStarted) ∧
    (∀ (g : Game) (e : Error),
      game_pass g = some (.error e) → e = .cannotPass) ∧
    (∀ (g : Game) (i : Nat) (e : Error),
      rack_at g i = .error e → e = .indexOutOfBounds)) :=
  ⟨by decide, blank_tile_unspendable turn_blank (by decide)⟩

/-- C3 (counterexample): the claim states every player with a non-empty
rack is charged when the game ends. Playing `AB` from `game_c3` empties the
bag-less player 0's rack, the game moves to `Over` — but player 1, whose
rack still holds an unassigned blank (non-empty, value 0), receives no
`"(remaining tiles)"` entry: `check_game_over` only charges racks of
positive value (`remaining > 0`). -/
theorem game_over_skips_blank_only_rack :
    play dict_all game_c3 turn_ab = some (game_c3_result, .ok ()) ∧
    game_c3_result.state = .over ∧
    game_c3_result.bag = [] ∧
    game_c3_result.racks.get? 0 = some [] ∧
    game_c3_result.racks.get? 1 = some [Tile.blank none] ∧
    game_c3_result.scores.get? 1 = some [] := by
  decide

/-- C3 (amended): whenever a committed play leaves the bag empty and at
least one rack empty, the game transitions to `Over` and every player whose
unplayed tiles have positive total value (blanks contribute 0) — rather than
every player with a non-empty rack — receives exactly one appended score
entry labeled `"(remaining tiles)"` whose value is the negative sum of that
player's unplayed tile values; players whose unplayed tiles sum to 0 receive
no entry. (Every committed play ends in `check_game_over`, whose effect on a
bag-empty, some-rack-empty position this theorem describes.) -/
theorem game_over_charges_positive_racks (g : Game)
    (hbag : g.bag = []) (hempty : g.racks.any List.isEmpty = true)
    (hlen : g.racks.length ≤ g.scores.length) :
    (∃ g', check_game_over g = some g' ∧ g'.state = .over ∧
      g'.board = g.board ∧ g'.bag = g.bag ∧ g'.racks = g.racks ∧
      (∀ i r, g.racks.get? i = some r →
        g'.scores.get? i = (g.scores.get? i).map (fun sc => sc ++
          (if 0 < rack_value r then [remaining_entry (rack_value r)] else []))) ∧
      (∀ j, g.racks.length ≤ j → g'.scores.get? j = g.scores.get? j)) ∧
    (∀ (dict : String → Bool) (g0 : Game) (t : Turn) (g1 : Game),
      play dict g0 t = some (g1, .ok ()) →
      ∃ gm, check_game_over gm = some g1) := by
  constructor
  · obtain ⟨sc, hsc, hsclen, hlow, hhigh, hmid⟩ :=
      add_remaining_spec g.racks 0 g.scores (by omega)
    have hcond : g.bag.isEmpty = true ∧ g.racks.any List.isEmpty = true :=
      ⟨by rw [hbag]; rfl, hempty⟩
    refine ⟨{ g with state := .over, scores := sc }, ?_, rfl, rfl, rfl, rfl,
      ?_, ?_⟩
    · unfold check_game_over
      rw [if_pos hcond, hsc]
      rfl
    · intro i r hr
      have hm := hmid i r hr
      simpa using hm
    · intro j hj
      have hh := hhigh j (by omega)
      simpa using hh
  · intro dict g0 t g1 h
    exact play_ok_check_game_over h

theorem game_over_charges_positive_racks_witness :
    (game_c3_amended_witness_input.bag = [] ∧
      game_c3_amended_witness_input.racks.any List.isEmpty = true ∧
      game_c3_amended_witness_input.racks.length ≤
        game_c3_amended_witness_input.scores.length) ∧
    ((∃ g', check_game_over game_c3_amended_witness_input = some g' ∧
      g'.state = .over ∧
      g'.board = game_c3_amended_witness_input.board ∧
      g'.bag = game_c3_amended_witness_input.bag ∧
      g'.racks = game_c3_amended_witness_input.racks ∧
      (∀ i r, game_c3_amended_witness_input.racks.get? i = some r →
        g'.scores.get? i =
          (game_c3_amended_witness_input.scores.get? i).map (fun sc => sc ++
            (if 0 < rack_value r then [remaining_entry (rack_value r)]
             else []))) ∧
      (∀ j, game_c3_amended_witness_input.racks.length ≤ j →
        g'.scores.get? j = game_c3_amended_witness_input.scores.get? j)) ∧
    (∀ (dict : String → Bool) (g0 : Game) (t : Turn) (g1 : Game),
      play dict g0 t = some (g1, .ok ()) →
      ∃ gm, check_game_over gm = some g1)) :=
  ⟨⟨rfl, by decide, by decide⟩,
   game_over_charges_positive_racks game_c3_amended_witness_input rfl
     (by decide) (by decide)⟩

/-- C4 (counterexample): the claim states no operation moves a game out of
`Over`. But `Game::start` performs no state check: invoked on a finished
game it succeeds and resets the state to `Started`. -/
theorem start_restarts_finished_game :
    game_over_state.state = .over ∧
    (start game_over_state 0).map Game.state = some .started :=
  ⟨rfl, by decide⟩

/-- C4 (amended): once a game is `Over`, `play`, `add_player`, `swap` and
`pass` neither change the state nor mutate the board, bag, racks, cursor or
scores — `play` returns `GameOver` with the game untouched, `add_player`
returns an existing player's index unchanged or `AlreadyStarted`, `swap`
always panics (`todo!`), `pass` errors or panics. `start`, however, is not
guarded: on an `Over` game it succeeds and resets the state to `Started`. -/
theorem over_game_operations (g : Game) (h : g.state = .over) :
    (∀ (dict : String → Bool) (t : Turn),
      play dict g t = some (g, .error .gameOver)) ∧
    (∀ (p : String) (i : Nat) (g' : Game),
      add_player g p = some (.ok (i, g')) → g' = g) ∧
    (∀ (p : String) (e : Error),
      add_player g p = some (.error e) → e = .alreadyStarted) ∧
    (∀ p : String, add_player g p ≠ none) ∧
    (∀ t : Turn, swap g t = none) ∧
    (∀ g' : Game, game_pass g ≠ some (.ok g')) ∧
    (g.players ≠ [] →
      ∀ n : Nat, ∃ g', start g n = some g' ∧ g'.state = .started) := by
  have hne : g.state ≠ State.pre := by rw [h]; intro hc; cases hc
  refine ⟨?hplay, ?haddok, ?hadderr, ?haddsome, fun t => rfl, ?hpassed, ?hstart⟩
  · intro dict t
    unfold play
    rw [h]
  · intro p i g' hadd
    unfold add_player at hadd
    cases h1 : g.players.findIdx? (· == p) with
    | some j =>
      rw [h1] at hadd; try dsimp only [] at hadd
      cases hadd; rfl
    | none =>
      rw [h1] at hadd; try dsimp only [] at hadd
      rw [if_pos hne] at hadd
      cases hadd
  · intro p e hadd
    unfold add_player at hadd
    cases h1 : g.players.findIdx? (· == p) with
    | some j => rw [h1] at hadd; try dsimp only [] at hadd; cases hadd
    | none =>
      rw [h1] at hadd; try dsimp only [] at hadd
      rw [if_pos hne] at hadd
      cases hadd; rfl
  · intro p
    unfold add_player
    cases h1 : g.players.findIdx? (· == p) with
    | some j => simp
    | none =>
      try dsimp only []
      rw [if_pos hne]
      simp
  · intro g' hc
    unfold game_pass at hc
    split at hc
    · cases hc
    · cases hc
  · intro hp n
    unfold start
    rw [if_neg ?_]
    · exact ⟨_, rfl, rfl⟩
    · simp only [List.isEmpty_iff]
      exact hp

theorem over_game_operations_witness :
    game_over_state.state = .over ∧
    ((∀ (dict : String → Bool) (t : Turn),
      play dict game_over_state t = some (game_over_state, .error .gameOver)) ∧
    (∀ (p : String) (i : Nat) (g' : Game),
      add_player game_over_state p = some (.ok (i, g')) →
        g' = game_over_state) ∧
    (∀ (p : String) (e : Error),
      add_player game_over_state p = some (.error e) → e = .alreadyStarted) ∧
    (∀ p : String, add_player game_over_state p ≠ none) ∧
    (∀ t : Turn, swap game_over_state t = none) ∧
    (∀ g' : Game, game_pass game_over_state ≠ some (.ok g')) ∧
    (game_over_state.players ≠ [] →
      ∀ n : Nat, ∃ g', start game_over_state n = some g' ∧
        g'.state = .started)) :=
  ⟨rfl, over_game_operations game_over_state rfl⟩

end Scrabble
